import Mathlib

/-!
Verification development for the aitag-search-bot repository.

The subject of the claims is the parameter-extraction subsystem
(`src/bot/param_explainer.py`), the catalog response normalization
(`src/bot/api_client.py`: `extract_works`, `get_total_count`) and the
caller-side fallback in `src/bot/telegram_bot.py`
(`_send_parameter_explanation`).

The embedding works on `List Char` / `String` directly.  Python's regular
expression scans are translated into explicit left-to-right scanners with
the exact backtracking behaviour of the patterns appearing in the source
(alternation tried in order, greedy `\s*` with single-character backtrack
before `[^,\n]+`, non-overlapping `findall` resumption after each match).

Modelling notes (deviations from CPython that no claim depends on):
* Whitespace classes (`\s`, `str.strip`, `str.split()`) are modelled by the
  six ASCII whitespace characters; exotic Unicode whitespace is not modelled.
* `re.IGNORECASE` uses full Unicode case folding in CPython; the model folds
  ASCII letters plus the single equivalence U+017F (latin small letter long s)
  ~ `s`, which is one of the case-fold pairs CPython's `re` applies to
  literals compiled with `IGNORECASE`.
* `json.loads` is modelled for integer numerals only; a numeral with a
  fraction or exponent makes the modelled loader fail.  No claim involves
  non-integer numerics.
* Python dict insertion semantics (`d[k] = v` keeps the first-seen position
  of `k` and overwrites the value) are modelled by `pySetItem` on an
  association list.
-/

namespace Bot

/-! ### Python string primitives -/

/-- ASCII whitespace, the portion of Python's `\s` / `str.strip` class the
model covers. -/
def isWS (c : Char) : Bool :=
  c == ' ' || c == '\t' || c == '\n' || c == '\r' || c == '\x0b' || c == '\x0c'

/-- Characters admitted by the value group `[^,\n]+` of the Dialect A regex. -/
def isValChar (c : Char) : Bool := !(c == ',' || c == '\n')

/-- Case folding used for `re.IGNORECASE` matching: ASCII lowering plus the
long-s equivalence applied by CPython's regex compiler. -/
def foldChar (c : Char) : Char := if c = 'ſ' then 's' else c.toLower

/-- Python `str.lower` (ASCII portion). -/
def lowerStr (s : String) : String := ⟨s.data.map Char.toLower⟩

/-- Drop a trailing run of characters satisfying `p`. -/
def dropTrailWhile (p : Char → Bool) (cs : List Char) : List Char :=
  (cs.reverse.dropWhile p).reverse

/-- Python `str.strip()` on a character list (ASCII whitespace). -/
def stripL (cs : List Char) : List Char :=
  dropTrailWhile isWS (cs.dropWhile isWS)

/-- Python `str.strip()` on a string. -/
def stripStr (s : String) : String := ⟨stripL s.data⟩

/-- Python `sep.join(l)` and `"\n".join(lines)`: concatenation with a
separator between elements. -/
def joinSep (sep : String) : List String → String
  | [] => ""
  | [x] => x
  | x :: y :: xs => x ++ sep ++ joinSep sep (y :: xs)

/-- Python `str.split()` (no argument): split on whitespace runs, empties
discarded.  `acc` holds the current word reversed. -/
def pySplitWSAux (acc : List Char) : List Char → List String
  | [] => if acc.isEmpty then [] else [⟨acc.reverse⟩]
  | c :: cs =>
    if isWS c then
      if acc.isEmpty then pySplitWSAux [] cs
      else ⟨acc.reverse⟩ :: pySplitWSAux [] cs
    else pySplitWSAux (c :: acc) cs

/-- Python `str.split()` with no argument. -/
def pySplitWS (cs : List Char) : List String := pySplitWSAux [] cs

/-- Python `str.replace(pat, rep)` for a non-empty `pat`: left-to-right,
non-overlapping.  Fuel `cs.length` suffices because every step consumes at
least one character. -/
def replaceAll : Nat → List Char → List Char → List Char → List Char
  | _, _, _, [] => []
  | 0, _, _, cs => cs
  | fuel + 1, pat, rep, c :: cs =>
    if pat.isPrefixOf (c :: cs) then
      rep ++ replaceAll fuel pat rep ((c :: cs).drop pat.length)
    else
      c :: replaceAll fuel pat rep cs

/-- Python `s.replace(pat, rep)` on strings. -/
def pyReplaceStr (s pat rep : String) : String :=
  ⟨replaceAll s.data.length pat.data rep.data s.data⟩

/-- Python `pat in s` substring test. -/
def containsSub (pat : List Char) : List Char → Bool
  | [] => pat.isEmpty
  | c :: cs => pat.isPrefixOf (c :: cs) || containsSub pat cs

/-! ### Python dict semantics on association lists -/

/-- Dict lookup (`d.get(k)` / `k in d` support) on an insertion-ordered
association list. -/
def pyGet {α : Type} (k : String) : List (String × α) → Option α
  | [] => none
  | (k', v) :: rest => if k' = k then some v else pyGet k rest

/-- Python `d[k] = v` on an insertion-ordered dict: overwrite in place when
the key exists, append otherwise. -/
def pySetItem {α : Type} : List (String × α) → String → α → List (String × α)
  | [], k, v => [(k, v)]
  | (k', v') :: rest, k, v =>
    if k' = k then (k, v) :: rest else (k', v') :: pySetItem rest k v

/-- A parsed parameter map: insertion-ordered `key → value` pairs
(`Dict[str, str]` in the source). -/
abbrev ParamMap := List (String × String)

/-! ### Dialect A: the inline `Key: value` regex of `parse_parameters`

Source pattern (``re.IGNORECASE``)::

  (Steps|Sampler|CFG scale|Seed|Size|Model|Model hash|Clip skip|
   Denoising strength|Schedule type|VAE)\s*[:：]\s*([^,\n]+)
-/

/-- The alternation of recognized Dialect A key names, in source order
(order matters for regex backtracking: `Model` is tried before
`Model hash`, and falls through to it when no colon follows). -/
def sdKeys : List String :=
  ["Steps", "Sampler", "CFG scale", "Seed", "Size", "Model", "Model hash",
   "Clip skip", "Denoising strength", "Schedule type", "VAE"]

/-- Case-folded literal match: `matchFold pat cs = some (m, rest)` when `cs`
starts with a case-fold variant `m` of `pat`, with `rest` the remainder. -/
def matchFold : List Char → List Char → Option (List Char × List Char)
  | [], cs => some ([], cs)
  | _ :: _, [] => none
  | p :: ps, c :: cs =>
    if foldChar c = foldChar p then
      match matchFold ps cs with
      | some (m, rest) => some (c :: m, rest)
      | none => none
    else none

/-- The `\s*` before `([^,\n]+)`: greedy, backing off one character at a
time until a `[^,\n]` character can start the (greedy, non-empty) value
group.  Returns the value group and the remainder. -/
def spacesThenVal : List Char → Option (List Char × List Char)
  | [] => none
  | c :: cs =>
    if isWS c then
      match spacesThenVal cs with
      | some r => some r
      | none =>
        if isValChar c then
          some ((c :: cs).takeWhile isValChar, (c :: cs).dropWhile isValChar)
        else none
    else
      if isValChar c then
        some ((c :: cs).takeWhile isValChar, (c :: cs).dropWhile isValChar)
      else none

/-- The `\s*[:：]\s*([^,\n]+)` tail of the Dialect A pattern.  The first
`\s*` needs no backtracking (whitespace is never a colon). -/
def colonTail (cs : List Char) : Option (List Char × List Char) :=
  match cs.dropWhile isWS with
  | c :: rest => if c = ':' ∨ c = '：' then spacesThenVal rest else none
  | [] => none

/-- Try the key alternation at the current position, in order, with
backtracking to the next alternative when the colon-and-value tail fails.
Returns (matched key text, raw value text, remainder after the match). -/
def tryKeys : List String → List Char → Option (String × String × List Char)
  | [], _ => none
  | k :: ks, cs =>
    match matchFold k.data cs with
    | some (m, rest1) =>
      match colonTail rest1 with
      | some (v, rest2) => some (⟨m⟩, ⟨v⟩, rest2)
      | none => tryKeys ks cs
    | none => tryKeys ks cs

/-- `re.findall` scan for the Dialect A pattern: at each position try the
pattern; on a match emit the groups and resume after the match, otherwise
advance one character.  Every step consumes at least one character, so fuel
`cs.length` is never exhausted. -/
def scanSD : Nat → List Char → List (String × String)
  | _, [] => []
  | 0, _ :: _ => []
  | fuel + 1, c :: cs =>
    match tryKeys sdKeys (c :: cs) with
    | some (k, v, rest) => (k, v) :: scanSD fuel rest
    | none => scanSD fuel cs

/-- All Dialect A matches of a text. -/
def scanSDAll (cs : List Char) : List (String × String) := scanSD cs.length cs

/-- `key.lower().strip()` applied to a matched key group. -/
def keyNorm (k : String) : String := stripStr (lowerStr k)

/-- `value.strip().rstrip(',')` applied to a matched value group. -/
def valNorm (v : String) : String := ⟨dropTrailWhile (fun c => c == ',') (stripL v.data)⟩

/-- The per-match store of `parse_parameters`:
`params[key.lower().strip()] = value.strip().rstrip(',')`. -/
def sdStore (m : ParamMap) (kv : String × String) : ParamMap :=
  pySetItem m (keyNorm kv.1) (valNorm kv.2)

/-- The dict built from the Dialect A key-value matches, in source order. -/
def dialectABase (cs : List Char) : ParamMap :=
  (scanSDAll cs).foldl sdStore []

/-! ### LoRA tag scan of `parse_parameters`

Source pattern (``re.IGNORECASE``): ``<lora:([^:>]+):[^>]+>``. -/

/-- Match the LoRA tag pattern at the current position.  The two character
classes exclude their own terminators, so greedy matching needs no
backtracking. -/
def matchLoraAt (cs : List Char) : Option (String × List Char) :=
  match matchFold "<lora:".data cs with
  | none => none
  | some (_, rest1) =>
    let name := rest1.takeWhile (fun c => !(c == ':' || c == '>'))
    let rest2 := rest1.dropWhile (fun c => !(c == ':' || c == '>'))
    if name.isEmpty then none
    else
      match rest2 with
      | ':' :: rest3 =>
        let body := rest3.takeWhile (fun c => !(c == '>'))
        let rest4 := rest3.dropWhile (fun c => !(c == '>'))
        if body.isEmpty then none
        else
          match rest4 with
          | '>' :: rest5 => some (⟨name⟩, rest5)
          | _ => none
      | _ => none

/-- `re.findall` scan for LoRA tags, collecting the name groups. -/
def scanLora : Nat → List Char → List String
  | _, [] => []
  | 0, _ :: _ => []
  | fuel + 1, c :: cs =>
    match matchLoraAt (c :: cs) with
    | some (name, rest) => name :: scanLora fuel rest
    | none => scanLora fuel cs

/-- All LoRA name groups of a text. -/
def scanLoraAll (cs : List Char) : List String := scanLora cs.length cs

/-- The full Dialect A result: the key-value dict, then `params["lora"] =
", ".join(lora_matches)` when the LoRA scan found anything. -/
def dialectAFull (s : String) : ParamMap :=
  let base := dialectABase s.data
  let loras := scanLoraAll s.data
  if loras = [] then base else pySetItem base "lora" (joinSep ", " loras)

/-! ### JSON values and Python runtime behaviour on them -/

/-- A JSON value as produced by `json.loads` (numbers restricted to
integers, see the header note). -/
inductive Json where
  | null : Json
  | bool : Bool → Json
  | num : Int → Json
  | str : String → Json
  | arr : List Json → Json
  | obj : List (String × Json) → Json

/-- Python exception kinds relevant to the modelled code. -/
inductive PyErr where
  | attributeError : PyErr
  | typeError : PyErr
  | keyError : PyErr
  | indexError : PyErr
deriving DecidableEq

mutual
/-- Python `repr` of a loaded JSON value (string escaping inside `repr` is
not modelled; no claim depends on it). -/
def pyRepr : Json → String
  | .null => "None"
  | .bool true => "True"
  | .bool false => "False"
  | .num n => toString n
  | .str s => "\x27" ++ s ++ "\x27"
  | .arr xs => "[" ++ pyReprSeq xs ++ "]"
  | .obj kvs => "\x7b" ++ pyReprMembers kvs ++ "\x7d"

/-- Comma-separated `repr` of list elements. -/
def pyReprSeq : List Json → String
  | [] => ""
  | [x] => pyRepr x
  | x :: y :: xs => pyRepr x ++ ", " ++ pyReprSeq (y :: xs)

/-- Comma-separated `repr` of dict members. -/
def pyReprMembers : List (String × Json) → String
  | [] => ""
  | [(k, v)] => "\x27" ++ k ++ "\x27: " ++ pyRepr v
  | (k, v) :: m :: kvs => "\x27" ++ k ++ "\x27: " ++ pyRepr v ++ ", " ++ pyReprMembers (m :: kvs)
end

/-- Python `str()` of a loaded JSON value. -/
def pyStr : Json → String
  | .str s => s
  | j => pyRepr j

/-- Python truthiness of a loaded JSON value. -/
def pyTruthy : Json → Bool
  | .null => false
  | .bool b => b
  | .num n => n != 0
  | .str s => !s.data.isEmpty
  | .arr xs => !xs.isEmpty
  | .obj kvs => !kvs.isEmpty

/-- Key membership in a dict member list (`k in d` for a dict). -/
def containsKey (kvs : List (String × Json)) (k : String) : Bool :=
  (pyGet k kvs).isSome

/-- Python `k in j` for a string `k`: dict key membership, list element
equality, substring test on strings, `TypeError` otherwise. -/
def jContains (j : Json) (k : String) : Except PyErr Bool :=
  match j with
  | .obj kvs => .ok (containsKey kvs k)
  | .arr xs => .ok (xs.any (fun e => match e with | .str s => s == k | _ => false))
  | .str s => .ok (containsSub k.data s.data)
  | _ => .error .typeError

/-- Short-circuit `a in j or b in j`. -/
def jContains2 (j : Json) (a b : String) : Except PyErr Bool :=
  match jContains j a with
  | .error e => .error e
  | .ok true => .ok true
  | .ok false => jContains j b

/-- Python `j.get(k, d)`: only dicts have `.get` (`AttributeError`
otherwise). -/
def jGetD (j : Json) (k : String) (d : Json) : Except PyErr Json :=
  match j with
  | .obj kvs => .ok ((pyGet k kvs).getD d)
  | _ => .error .attributeError

/-- Python `j[k]` for a string `k`: dict lookup (`KeyError` when missing),
`TypeError` on any non-dict. -/
def jIndexStr (j : Json) (k : String) : Except PyErr Json :=
  match j with
  | .obj kvs =>
    match pyGet k kvs with
    | some v => .ok v
    | none => .error .keyError
  | _ => .error .typeError

/-- Python `len()` of a loaded JSON value. -/
def pyLen (j : Json) : Except PyErr Nat :=
  match j with
  | .str s => .ok s.data.length
  | .arr xs => .ok xs.length
  | .obj kvs => .ok kvs.length
  | _ => .error .typeError

/-! ### A model of `json.loads`

Recursive descent with fuel; every fuel decrement follows the consumption
of at least one input character within the previous two calls, so the
initial fuel `2 * length + 4` is never exhausted. -/

/-- JSON whitespace accepted between tokens by `json.loads`. -/
def isJWS (c : Char) : Bool := c == ' ' || c == '\t' || c == '\n' || c == '\r'

/-- Hexadecimal digit value. -/
def hexDigit (c : Char) : Option Nat :=
  if '0' ≤ c ∧ c ≤ '9' then some (c.toNat - '0'.toNat)
  else if 'a' ≤ c ∧ c ≤ 'f' then some (c.toNat - 'a'.toNat + 10)
  else if 'A' ≤ c ∧ c ≤ 'F' then some (c.toNat - 'A'.toNat + 10)
  else none

/-- Body of a JSON string literal, after the opening quote; handles the
escape sequences `json.loads` accepts and rejects raw control characters. -/
def parseStrBody (acc : List Char) : List Char → Option (String × List Char)
  | [] => none
  | '"' :: rest => some (⟨acc.reverse⟩, rest)
  | '\\' :: e :: rest =>
    match e with
    | '"' => parseStrBody ('"' :: acc) rest
    | '\\' => parseStrBody ('\\' :: acc) rest
    | '/' => parseStrBody ('/' :: acc) rest
    | 'n' => parseStrBody ('\n' :: acc) rest
    | 't' => parseStrBody ('\t' :: acc) rest
    | 'r' => parseStrBody ('\r' :: acc) rest
    | 'b' => parseStrBody ('\x08' :: acc) rest
    | 'f' => parseStrBody ('\x0c' :: acc) rest
    | 'u' =>
      match rest with
      | h1 :: h2 :: h3 :: h4 :: rest' =>
        match hexDigit h1, hexDigit h2, hexDigit h3, hexDigit h4 with
        | some a, some b, some c, some d =>
          parseStrBody (Char.ofNat (((a * 16 + b) * 16 + c) * 16 + d) :: acc) rest'
        | _, _, _, _ => none
      | _ => none
    | _ => none
  | c :: rest => if c.toNat < 32 then none else parseStrBody (c :: acc) rest

/-- Digit test. -/
def isDigitCh (c : Char) : Bool := '0' ≤ c && c ≤ '9'

/-- An integer JSON numeral (see the header note: fraction/exponent parts
make the modelled loader fail). -/
def parseNum (cs : List Char) : Option (Json × List Char) :=
  let (negSign, cs1) := match cs with
    | '-' :: rest => (true, rest)
    | _ => (false, cs)
  let digits := cs1.takeWhile isDigitCh
  let rest := cs1.dropWhile isDigitCh
  if digits.isEmpty then none
  else if digits.length > 1 ∧ digits.headI = '0' then none
  else
    match rest with
    | '.' :: _ => none
    | 'e' :: _ => none
    | 'E' :: _ => none
    | _ =>
      let n : Nat := digits.foldl (fun a c => a * 10 + (c.toNat - '0'.toNat)) 0
      some (.num (if negSign then -(n : Int) else (n : Int)), rest)

mutual
/-- A JSON value at the head of the input. -/
def parseVal : Nat → List Char → Option (Json × List Char)
  | 0, _ => none
  | fuel + 1, cs0 =>
    match cs0.dropWhile isJWS with
    | '\x7b' :: rest => parseObjBody fuel rest
    | '[' :: rest => parseArrBody fuel rest
    | '"' :: rest => (parseStrBody [] rest).map (fun p => (Json.str p.1, p.2))
    | 't' :: 'r' :: 'u' :: 'e' :: rest => some (.bool true, rest)
    | 'f' :: 'a' :: 'l' :: 's' :: 'e' :: rest => some (.bool false, rest)
    | 'n' :: 'u' :: 'l' :: 'l' :: rest => some (.null, rest)
    | cs => parseNum cs

/-- Object members after the opening brace. -/
def parseObjBody : Nat → List Char → Option (Json × List Char)
  | 0, _ => none
  | fuel + 1, cs0 =>
    match cs0.dropWhile isJWS with
    | '\x7d' :: rest => some (.obj [], rest)
    | '"' :: rest =>
      match parseStrBody [] rest with
      | none => none
      | some (k, rest1) =>
        match rest1.dropWhile isJWS with
        | ':' :: rest2 =>
          match parseVal fuel rest2 with
          | none => none
          | some (v, rest3) => parseObjRest fuel (pySetItem [] k v) rest3
        | _ => none
    | _ => none

/-- Remaining object members; `acc` mirrors the dict built so far (repeated
keys keep their first position and take the last value, as in Python). -/
def parseObjRest : Nat → List (String × Json) → List Char → Option (Json × List Char)
  | 0, _, _ => none
  | fuel + 1, acc, cs0 =>
    match cs0.dropWhile isJWS with
    | '\x7d' :: rest => some (.obj acc, rest)
    | ',' :: rest =>
      match rest.dropWhile isJWS with
      | '"' :: rest1 =>
        match parseStrBody [] rest1 with
        | none => none
        | some (k, rest2) =>
          match rest2.dropWhile isJWS with
          | ':' :: rest3 =>
            match parseVal fuel rest3 with
            | none => none
            | some (v, rest4) => parseObjRest fuel (pySetItem acc k v) rest4
          | _ => none
      | _ => none
    | _ => none

/-- Array elements after the opening bracket. -/
def parseArrBody : Nat → List Char → Option (Json × List Char)
  | 0, _ => none
  | fuel + 1, cs0 =>
    match cs0.dropWhile isJWS with
    | ']' :: rest => some (.arr [], rest)
    | cs =>
      match parseVal fuel cs with
      | none => none
      | some (v, rest) => parseArrRest fuel [v] rest

/-- Remaining array elements (`acc` reversed). -/
def parseArrRest : Nat → List Json → List Char → Option (Json × List Char)
  | 0, _, _ => none
  | fuel + 1, acc, cs0 =>
    match cs0.dropWhile isJWS with
    | ']' :: rest => some (.arr acc.reverse, rest)
    | ',' :: rest =>
      match parseVal fuel rest with
      | none => none
      | some (v, rest1) => parseArrRest fuel (v :: acc) rest1
    | _ => none
end

/-- `json.loads` on a character list: one value, then only trailing
whitespace. -/
def json_loads (cs : List Char) : Option Json :=
  match parseVal (2 * cs.length + 4) cs with
  | none => none
  | some (j, rest) => if rest.dropWhile isJWS = [] then some j else none

/-! ### `parse_comfyui_workflow` -/

/-- The `re.search(r'\{[\s\S]*\}', text)` match: from the first opening
brace to the last closing brace, when the latter comes strictly after the
former. -/
def extractBraces (cs : List Char) : Option (List Char) :=
  match cs.dropWhile (fun c => !(c == '\x7b')) with
  | [] => none
  | c :: rest =>
    let candidate := ((c :: rest).reverse.dropWhile (fun c => !(c == '\x7d'))).reverse
    if candidate.length ≥ 2 then some candidate else none

/-- `lora_match = re.search(r'<lora:([^:>]+)', lora_text)` — case
sensitive, leftmost match, name group non-empty. -/
def searchLoraName : Nat → List Char → Option String
  | _, [] => none
  | 0, _ :: _ => none
  | fuel + 1, c :: cs =>
    if "<lora:".data.isPrefixOf (c :: cs) then
      let nm := ((c :: cs).drop 6).takeWhile (fun c => !(c == ':' || c == '>'))
      if nm.isEmpty then searchLoraName fuel cs else some ⟨nm⟩
    else searchLoraName fuel cs

/-- Strip the given suffix literals by repeated `str.replace(pat, "")`. -/
def stripSuffixes (s : String) (pats : List String) : String :=
  pats.foldl (fun acc p => pyReplaceStr acc p "") s

/-- One guarded name-cleaning store, the common shape of the checkpoint
and VAE branches: `x = inputs.get(field, "")`, `if x:`, strip suffixes,
`params[key] = x`.  An exception (non-dict `inputs`, or `.replace` on a
truthy non-string) carries the params built so far. -/
def nameSet (inputs : Json) (field key : String) (pats : List String)
    (p : ParamMap) : Except ParamMap ParamMap :=
  match jGetD inputs field (.str "") with
  | .error _ => .error p
  | .ok v =>
    if pyTruthy v then
      match v with
      | .str s => .ok (pySetItem p key (stripSuffixes s pats))
      | _ => .error p
    else .ok p

/-- One guarded field store of the KSampler branch: `if field in inputs:
params[key] = conv(inputs[field])`. -/
def condSet (inputs : Json) (field key : String) (conv : Json → String)
    (p : ParamMap) : Except ParamMap ParamMap :=
  match jContains inputs field with
  | .error _ => .error p
  | .ok false => .ok p
  | .ok true =>
    match jIndexStr inputs field with
    | .error _ => .error p
    | .ok v => .ok (pySetItem p key (conv v))

/-- `lora_text = inputs.get("text", "") or inputs.get("lora_name", "")`:
the second lookup only runs when the first produced a falsy value. -/
def loraChoose (inputs : Json) : Except PyErr Json :=
  match jGetD inputs "text" (.str "") with
  | .error e => .error e
  | .ok t1 => if pyTruthy t1 then .ok t1 else jGetD inputs "lora_name" (.str "")

/-- Python `s.startswith("<")`. -/
def startsWithLt (s : String) : Bool :=
  match s.data with
  | '<' :: _ => true
  | _ => false

/-- The `if lora_text:` body: extract a `<lora:NAME` group, or fall back to
the raw value with `.safetensors` stripped unless it starts with `<`.  A
truthy non-string raises (`re.search` on a non-string). -/
def loraUse (lt : Json) (p : ParamMap) (loras : List String) :
    Except ParamMap (List String) :=
  if pyTruthy lt then
    match lt with
    | .str s =>
      match searchLoraName s.data.length s.data with
      | some nm => .ok (loras ++ [nm])
      | none =>
        if startsWithLt s then .ok loras
        else .ok (loras ++ [pyReplaceStr s ".safetensors" ""])
    | _ => .error p
  else .ok loras

/-- The LoRA-loader branch body: choose the text, then use it; an
exception in either step carries the params built so far. -/
def loraBranch (inputs : Json) (p : ParamMap) (loras : List String) :
    Except ParamMap (List String) :=
  match loraChoose inputs with
  | .error _ => .error p
  | .ok lt => loraUse lt p loras

/-- Exception short-circuit between two statements of the `try` block: an
exception in the first aborts, otherwise the second runs on its result. -/
def phaseBind {β : Type} (e : Except ParamMap ParamMap)
    (f : ParamMap → Except ParamMap β) : Except ParamMap β :=
  match e with
  | .error q => .error q
  | .ok p => f p

/-- The KSampler branch body: five guarded stores in source order.
The source stores `inputs["sampler_name"]` / `inputs["scheduler"]`
unconverted; the model stringifies, which coincides for the string values
the claims involve. -/
def ksamplerBranch (inputs : Json) (p : ParamMap) : Except ParamMap ParamMap :=
  phaseBind (condSet inputs "steps" "steps" pyStr p) (fun p2 =>
  phaseBind (condSet inputs "cfg" "cfg scale" pyStr p2) (fun p3 =>
  phaseBind (condSet inputs "sampler_name" "sampler" pyStr p3) (fun p4 =>
  phaseBind (condSet inputs "scheduler" "schedule type" pyStr p4) (fun p5 =>
  condSet inputs "seed" "seed" pyStr p5))))

/-- The `if "Checkpoint" in class_type or "CheckpointLoader" in class_type`
block. -/
def ckptPhase (ct inputs : Json) (p : ParamMap) : Except ParamMap ParamMap :=
  match jContains2 ct "Checkpoint" "CheckpointLoader" with
  | .error _ => .error p
  | .ok true => nameSet inputs "ckpt_name" "checkpoint" [".safetensors", ".ckpt"] p
  | .ok false => .ok p

/-- The `if "Lora" in class_type or "LoRA" in class_type` block (it only
touches the LoRA accumulator, never the params). -/
def loraPhase (ct inputs : Json) (p : ParamMap) (loras : List String) :
    Except ParamMap (List String) :=
  match jContains2 ct "Lora" "LoRA" with
  | .error _ => .error p
  | .ok true => loraBranch inputs p loras
  | .ok false => .ok loras

/-- The `if "KSampler" in class_type or "Sampler" in class_type` block. -/
def sampPhase (ct inputs : Json) (p : ParamMap) : Except ParamMap ParamMap :=
  match jContains2 ct "KSampler" "Sampler" with
  | .error _ => .error p
  | .ok true => ksamplerBranch inputs p
  | .ok false => .ok p

/-- The `if "VAE" in class_type` block. -/
def vaePhase (ct inputs : Json) (p : ParamMap) : Except ParamMap ParamMap :=
  match jContains ct "VAE" with
  | .error _ => .error p
  | .ok true => nameSet inputs "vae_name" "vae" [".safetensors"] p
  | .ok false => .ok p

/-- Exception short-circuit after the LoRA block (which yields the
accumulator, not the params). -/
def loraBind (e : Except ParamMap (List String))
    (f : List String → Except ParamMap (ParamMap × List String)) :
    Except ParamMap (ParamMap × List String) :=
  match e with
  | .error p => .error p
  | .ok l => f l

/-- The body of the node loop for one node record (already known to be a
dict).  Mirrors the four sequential `if` branches of the source; the
`Except` error payload is the params dict at the moment the Python
exception would be raised. -/
def processNode (nd : Json) (p0 : ParamMap) (loras0 : List String) :
    Except ParamMap (ParamMap × List String) :=
  let ct : Json := match nd with
    | .obj kvs => (pyGet "class_type" kvs).getD (.str "")
    | _ => .str ""
  let inputs : Json := match nd with
    | .obj kvs => (pyGet "inputs" kvs).getD (.obj [])
    | _ => .obj []
  phaseBind (ckptPhase ct inputs p0) (fun p1 =>
  loraBind (loraPhase ct inputs p1 loras0) (fun loras1 =>
  phaseBind (sampPhase ct inputs p1) (fun p6 =>
  phaseBind (vaePhase ct inputs p6) (fun p7 =>
  .ok (p7, loras1)))))

/-- The `for node_id, node_data in workflow.items()` loop; non-dict node
records are skipped by the `isinstance` guard. -/
def scanNodes : List (String × Json) → ParamMap → List String →
    Except ParamMap (ParamMap × List String)
  | [], p, l => .ok (p, l)
  | (_, nd) :: rest, p, l =>
    match nd with
    | .obj kvs =>
      match processNode (.obj kvs) p l with
      | .error p' => .error p'
      | .ok (p', l') => scanNodes rest p' l'
    | _ => scanNodes rest p l

/-- The remainder of the `try` block once `json.loads` has produced a
value: iterate `workflow.items()` (an `AttributeError` on any non-dict
value), collect the LoRA names, then tag the workflow.  `.error p` means a
Python exception escaped with `params = p` built so far. -/
def comfyLoaded (w : Json) : Except ParamMap ParamMap :=
  match w with
  | .obj nodes =>
    match scanNodes nodes [] [] with
    | .error p => .error p
    | .ok (p, loras) =>
      let p1 := if loras = [] then p else pySetItem p "lora" (joinSep ", " loras)
      .ok (if p1 = [] then p1 else pySetItem p1 "workflow" "ComfyUI")
  | _ => .error []

/-- The whole `try` block of `parse_comfyui_workflow`.  `.error p` means a
Python exception escaped the block with `params = p` built so far (the
`except` clause then returns `p`); `.ok p` is a normal return. -/
def comfyTry (text : String) : Except ParamMap ParamMap :=
  match extractBraces text.data with
  | none => .ok []
  | some js =>
    match json_loads js with
    | none => .error []
    | some w => comfyLoaded w

/-- `parse_comfyui_workflow`: the `try` block with every exception caught,
returning the params accumulated at the raise point. -/
def parse_comfyui_workflow (text : String) : ParamMap :=
  match comfyTry text with
  | .ok p => p
  | .error p => p

/-- `parse_parameters`: empty-input early return, Dialect A (key-value
regex plus LoRA tags), then the ComfyUI fallback only when Dialect A
produced nothing. -/
def parse_parameters (s : String) : ParamMap :=
  if s = "" then []
  else
    let p := dialectAFull s
    if p = [] then parse_comfyui_workflow s else p

/-! ### The explainer (`PARAM_EXPLANATIONS`, `explain_parameters`,
`get_quick_summary`) -/

/-- The fixed knowledge base: key, display name, prose description. -/
def PARAM_EXPLANATIONS : List (String × String × String) :=
  [("steps", "迭代步数 (Steps)",
    "生成过程的迭代次数。步数越高，细节越丰富，但生成时间也越长。通常 20-30 步就能获得不错的效果。"),
   ("sampler", "采样器 (Sampler)",
    "控制图像生成算法的核心组件。不同采样器会产生不同风格的画面。常见的有 Euler、DPM++、DDIM 等。"),
   ("cfg scale", "提示词引导强度 (CFG Scale)",
    "决定 AI 对你输入的提示词的遵循程度。数值越高越\x27听话\x27但可能过度饱和；越低则更\x27创意\x27但可能偏离主题。推荐 5-12。"),
   ("seed", "随机种子 (Seed)",
    "决定画面随机性的魔法数字。相同的种子 + 相同的参数 = 相同的画面。用于复现或微调作品。"),
   ("size", "尺寸 (Size)",
    "输出图像的分辨率 (宽×高)。常见比例有 1:1 (头像)、16:9 (壁纸)、2:3 (人像) 等。"),
   ("model", "模型 (Model)",
    "AI 绘画的\x27大脑\x27。不同模型擅长不同风格，如写实、动漫、插画等。这是影响画面风格的最关键因素。"),
   ("checkpoint", "基础模型 (Checkpoint)",
    "ComfyUI 中的主模型文件。决定画面的整体风格和质量。"),
   ("model hash", "模型哈希 (Model Hash)",
    "模型文件的唯一标识符，用于精确匹配特定版本的模型。"),
   ("clip skip", "CLIP 层跳过 (Clip Skip)",
    "跳过 CLIP 文本编码器的后几层。数值越大，对提示词的理解越\x27抽象\x27，常用于动漫风格。"),
   ("denoising strength", "降噪强度 (Denoising)",
    "图生图 (img2img) 专属参数。数值越高改动越大，越低则越接近原图。"),
   ("schedule type", "调度类型 (Schedule)",
    "控制采样过程中噪声去除的节奏。不同调度器会影响最终画面的质感。"),
   ("vae", "VAE 模型",
    "变分自编码器，负责图像的编解码。不同 VAE 会影响颜色饱和度和细节表现。"),
   ("lora", "LoRA 微调模型",
    "轻量级微调模型，用于添加特定角色、风格或概念，无需替换主模型。"),
   ("workflow", "工作流类型",
    "该作品使用的生成工具类型，如 ComfyUI、Stable Diffusion WebUI 等。")]

/-- The fixed message `explain_parameters` returns for an empty map. -/
def noParamsMsg : String :=
  "😕 该作品没有可解读的参数信息。\n\n可能原因：\n• 非标准格式工作流\n• 作者未公开参数\n• 参数已被移除"

/-- The header line of a non-empty explanation. -/
def explainHeader : String := "🎨 <b>AI 生成参数解读</b>\n"

/-- The lines contributed by one map entry in the `for key, value` loop:
nothing for `workflow`, a three-line knowledge-base rendering when
`key.lower()` is known, a single raw line otherwise. -/
def entryLines (kv : String × String) : List String :=
  if kv.1 = "workflow" then []
  else
    match pyGet (lowerStr kv.1) PARAM_EXPLANATIONS with
    | some nd =>
      ["<b>📌 " ++ nd.1 ++ "</b>",
       "   值：<code>" ++ kv.2 ++ "</code>",
       "   💡 " ++ nd.2 ++ "\n"]
    | none => ["<b>📌 " ++ kv.1 ++ "</b>: <code>" ++ kv.2 ++ "</code>\n"]

/-- `explain_parameters`: the fixed message for an empty map, otherwise the
header, the workflow line when present, then the per-entry lines in map
order, joined with newlines. -/
def explain_parameters (params : ParamMap) : String :=
  if params = [] then noParamsMsg
  else
    let lines := [explainHeader]
    let lines := lines ++ (match pyGet "workflow" params with
      | some w => ["📦 <b>工具</b>: " ++ w ++ "\n"]
      | none => [])
    let lines := lines ++ params.flatMap entryLines
    joinSep "\n" lines

/-- Python `a or b` on two `.get` results (`None` and `""` are falsy). -/
def pyOrStrOpt : Option String → Option String → Option String
  | some s, b => if s = "" then b else some s
  | none, b => b

/-- `model_name.split(",")[0].strip()` followed by the 20/17-character
truncation. -/
def truncModelName (s : String) : String :=
  let n := stripStr ⟨s.data.takeWhile (fun c => !(c == ','))⟩
  if n.data.length > 20 then ⟨n.data.take 17⟩ ++ "..." else n

/-- `get_quick_summary`, with the one raising operation made explicit:
`params["sampler"].split()[0]` raises `IndexError` when the split is
empty. -/
def get_quick_summary_exc (params : ParamMap) : Except PyErr String :=
  let p1 : List String :=
    match pyOrStrOpt (pyGet "model" params) (pyGet "checkpoint" params) with
    | some s => if s = "" then [] else ["🤖 " ++ truncModelName s]
    | none => []
  let p2 : List String :=
    match pyGet "steps" params with
    | some v => ["🔄 " ++ v ++ "步"]
    | none => []
  let p3 : List String :=
    match pyGet "cfg scale" params with
    | some v => ["📊 CFG " ++ v]
    | none => []
  let p4e : Except PyErr (List String) :=
    match pyGet "sampler" params with
    | some v =>
      match pySplitWS v.data with
      | [] => .error .indexError
      | t :: _ => .ok ["🎯 " ++ t]
    | none => .ok []
  match p4e with
  | .error e => .error e
  | .ok p4 =>
    let p5 : List String :=
      match pyGet "workflow" params with
      | some w => ["📦 " ++ w]
      | none => []
    let parts := p1 ++ p2 ++ p3 ++ p4 ++ p5
    .ok (if parts = [] then "" else joinSep " | " parts)

/-! ### Catalog response normalization (`api_client.py`) -/

/-- `extract_works`: falsy responses and unrecognized object shapes give an
empty list, a bare list is returned as is, otherwise the value under the
first present key among `data`, `works`, `items`. -/
def extract_works (r : Json) : Except PyErr Json :=
  if !pyTruthy r then .ok (.arr [])
  else
    match r with
    | .arr xs => .ok (.arr xs)
    | _ =>
      match jContains r "data" with
      | .error e => .error e
      | .ok true => jIndexStr r "data"
      | .ok false =>
        match jContains r "works" with
        | .error e => .error e
        | .ok true => jIndexStr r "works"
        | .ok false =>
          match jContains r "items" with
          | .error e => .error e
          | .ok true => jIndexStr r "items"
          | .ok false => .ok (.arr [])

/-- `get_total_count`: falsy gives 0, otherwise the value under the first
present key among `total`, `total_count`, `count`, otherwise the length of
the extracted works. -/
def get_total_count (r : Json) : Except PyErr Json :=
  if !pyTruthy r then .ok (.num 0)
  else
    match jContains r "total" with
    | .error e => .error e
    | .ok true => jIndexStr r "total"
    | .ok false =>
      match jContains r "total_count" with
      | .error e => .error e
      | .ok true => jIndexStr r "total_count"
      | .ok false =>
        match jContains r "count" with
        | .error e => .error e
        | .ok true => jIndexStr r "count"
        | .ok false =>
          match extract_works r with
          | .error e => .error e
          | .ok ws =>
            match pyLen ws with
            | .error e => .error e
            | .ok n => .ok (.num n)

/-! ### The caller fallback (`telegram_bot.py`, `_send_parameter_explanation`) -/

/-- The parameter source selection of `_send_parameter_explanation`: parse
the prompt text first, and only when that yields nothing and the work's
`ai_json` string is non-empty, parse the latter. -/
def explanationParams (prompt aiJson : String) : ParamMap :=
  let params := parse_parameters prompt
  if params = [] ∧ aiJson ≠ "" then parse_parameters aiJson else params

/-! ### Spec-side definitions

The following definitions are written from the specification's wording (not
from the source) and are compared with the source-derived definitions in the
refinement theorems below. -/

/-- Spec wording for `summarize`: the model-or-checkpoint name, preferring
`model` and falling back to `checkpoint` when `model` is missing or empty. -/
def chosenModelName (m : ParamMap) : Option String :=
  match pyGet "model" m with
  | some s => if s = "" then pyGet "checkpoint" m else some s
  | none => pyGet "checkpoint" m

/-- Spec wording: the name fragment, truncated to 17 characters plus an
ellipsis when longer than 20 (the name being the first comma-separated
segment, trimmed). -/
def modelFragSpec (m : ParamMap) : Option String :=
  match chosenModelName m with
  | some s => if s = "" then none else some ("🤖 " ++ truncModelName s)
  | none => none

/-- Spec wording: the step-count fragment. -/
def stepsFragSpec (m : ParamMap) : Option String :=
  (pyGet "steps" m).map (fun v => "🔄 " ++ v ++ "步")

/-- Spec wording: the CFG-scale fragment. -/
def cfgFragSpec (m : ParamMap) : Option String :=
  (pyGet "cfg scale" m).map (fun v => "📊 CFG " ++ v)

/-- Spec wording: the first whitespace-delimited token of the sampler
name. -/
def samplerFragSpec (m : ParamMap) : Option String :=
  match pyGet "sampler" m with
  | some v =>
    match pySplitWS v.data with
    | t :: _ => some ("🎯 " ++ t)
    | [] => none
  | none => none

/-- Spec wording: the workflow-name fragment. -/
def workflowFragSpec (m : ParamMap) : Option String :=
  (pyGet "workflow" m).map (fun w => "📦 " ++ w)

/-- Spec wording for `summarize`: the present fragments in the fixed
order, joined with `" | "`; the empty string when none is present. -/
def summarize_spec (m : ParamMap) : String :=
  joinSep " | " (List.filterMap id
    [modelFragSpec m, stepsFragSpec m, cfgFragSpec m, samplerFragSpec m,
     workflowFragSpec m])

/-- Spec wording for `explain`: the ordered
`(display_name_or_key, value, description_or_none)` triples of the
non-`workflow` entries. -/
def explainTriples (m : ParamMap) : List (String × String × Option String) :=
  (m.filter (fun kv => kv.1 ≠ "workflow")).map (fun kv =>
    match pyGet (lowerStr kv.1) PARAM_EXPLANATIONS with
    | some nd => (nd.1, kv.2, some nd.2)
    | none => (kv.1, kv.2, none))

/-- Rendering of one spec triple: display name, raw value and description
for a knowledge-base key, the raw key and value with no description
otherwise. -/
def tripleLines : String × String × Option String → List String
  | (nm, v, some d) =>
    ["<b>📌 " ++ nm ++ "</b>", "   值：<code>" ++ v ++ "</code>", "   💡 " ++ d ++ "\n"]
  | (k, v, none) => ["<b>📌 " ++ k ++ "</b>: <code>" ++ v ++ "</code>\n"]

/-- Spec wording for `explain`: the fixed no-parameters message for an
empty map, otherwise a header, the workflow entry first and separately when
present, then the rendered triples in map order. -/
def explain_spec (m : ParamMap) : String :=
  if m = [] then noParamsMsg
  else
    joinSep "\n" (explainHeader ::
      ((match pyGet "workflow" m with
        | some w => ["📦 <b>工具</b>: " ++ w ++ "\n"]
        | none => []) ++
       (explainTriples m).flatMap tripleLines))

/-- The side condition under which `get_quick_summary` does not raise: the
`sampler` value, when present, has a non-empty whitespace split. -/
def samplerOk (m : ParamMap) : Bool :=
  match pyGet "sampler" m with
  | some v => !(pySplitWS v.data).isEmpty
  | none => true

/-! ### Association-list lemmas -/

theorem lookup_pySetItem_self {α : Type} (m : List (String × α)) (k : String) (v : α) :
    pyGet k (pySetItem m k v) = some v := by
  induction m with
  | nil => simp [pySetItem, pyGet]
  | cons hd tl ih =>
    by_cases h : hd.1 = k
    · simp [pySetItem, h, pyGet]
    · simpa [pySetItem, h, pyGet, beq_iff_eq, Ne.symm h] using ih

theorem lookup_pySetItem_ne {α : Type} (m : List (String × α)) (k k' : String) (v : α)
    (h : k' ≠ k) : pyGet k' (pySetItem m k v) = pyGet k' m := by
  induction m with
  | nil => simp [pySetItem, pyGet, Ne.symm h]
  | cons hd tl ih =>
    by_cases hh : hd.1 = k
    · subst hh
      simp [pySetItem, pyGet, Ne.symm h]
    · simp only [pySetItem, hh, if_false, pyGet]
      rw [ih]

theorem pySetItem_ne_nil {α : Type} (m : List (String × α)) (k : String) (v : α) :
    pySetItem m k v ≠ [] := by
  cases m with
  | nil => simp [pySetItem]
  | cons hd tl =>
    by_cases h : hd.1 = k <;> simp [pySetItem, h]

theorem mem_pySetItem {α : Type} {m : List (String × α)} {k : String} {v : α}
    {p : String × α} (hp : p ∈ pySetItem m k v) : p ∈ m ∨ p.1 = k := by
  induction m with
  | nil =>
    simp [pySetItem] at hp
    subst hp; right; rfl
  | cons hd tl ih =>
    by_cases h : hd.1 = k
    · simp [pySetItem, h] at hp
      rcases hp with hp | hp
      · subst hp; right; rfl
      · exact Or.inl (List.mem_cons_of_mem _ hp)
    · simp [pySetItem, h] at hp
      rcases hp with hp | hp
      · exact Or.inl (by simp [hp])
      · rcases ih hp with h1 | h1
        · exact Or.inl (List.mem_cons_of_mem _ h1)
        · exact Or.inr h1

theorem lookup_isSome_pySetItem {α : Type} (m : List (String × α)) (k k' : String) (v : α)
    (h : (pyGet k' m).isSome) : (pyGet k' (pySetItem m k v)).isSome := by
  by_cases hk : k' = k
  · subst hk; simp [lookup_pySetItem_self]
  · rwa [lookup_pySetItem_ne m k k' v hk]

/-! ### Lemmas about the Dialect A fold -/

theorem pyGet_isSome_sdFold (l : List (String × String)) (init : ParamMap) (k : String)
    (h : (pyGet k init).isSome) : (pyGet k (l.foldl sdStore init)).isSome := by
  induction l generalizing init with
  | nil => simpa using h
  | cons hd tl ih =>
    exact ih _ (lookup_isSome_pySetItem _ _ _ _ h)

theorem mem_scan_pyGet_isSome (l : List (String × String)) (init : ParamMap)
    (p : String × String) (hp : p ∈ l) :
    (pyGet (keyNorm p.1) (l.foldl sdStore init)).isSome := by
  induction l generalizing init with
  | nil => cases hp
  | cons hd tl ih =>
    rcases List.mem_cons.mp hp with h1 | h1
    · subst h1
      exact pyGet_isSome_sdFold tl _ _ (by simp [sdStore, lookup_pySetItem_self])
    · exact ih _ h1

theorem sdFold_ne_nil_of_ne_nil (l : List (String × String)) (init : ParamMap)
    (h : init ≠ []) : l.foldl sdStore init ≠ [] := by
  induction l generalizing init with
  | nil => simpa using h
  | cons hd tl ih => exact ih _ (pySetItem_ne_nil _ _ _)

theorem sdFold_ne_nil (l : List (String × String)) (init : ParamMap)
    (h : l ≠ []) : l.foldl sdStore init ≠ [] := by
  cases l with
  | nil => exact absurd rfl h
  | cons hd tl => exact sdFold_ne_nil_of_ne_nil tl _ (pySetItem_ne_nil _ _ _)

/-! ### Origin of the keys produced by the Dialect A scan -/

theorem matchFold_fold {pat cs m rest} (h : matchFold pat cs = some (m, rest)) :
    m.map foldChar = pat.map foldChar := by
  induction pat generalizing cs m rest with
  | nil =>
    simp [matchFold] at h
    simp [h.1]
  | cons p ps ih =>
    cases cs with
    | nil => simp [matchFold] at h
    | cons c cs' =>
      by_cases hf : foldChar c = foldChar p
      · simp only [matchFold, hf, if_true] at h
        cases hm : matchFold ps cs' with
        | none => rw [hm] at h; cases h
        | some pr =>
          rw [hm] at h
          cases pr with
          | mk m' rest' =>
            simp at h
            rcases h with ⟨h1, _⟩
            subst h1
            simp [List.map, hf, ih hm]
      · simp [matchFold, hf] at h

theorem tryKeys_key {ks : List String} {cs : List Char} {k v rest}
    (h : tryKeys ks cs = some (k, v, rest)) :
    ∃ pat ∈ ks, k.data.map foldChar = pat.data.map foldChar := by
  induction ks with
  | nil => simp [tryKeys] at h
  | cons kh kt ih =>
    simp only [tryKeys] at h
    cases hm : matchFold kh.data cs with
    | none =>
      rw [hm] at h
      rcases ih h with ⟨pat, hp, he⟩
      exact ⟨pat, by simp [hp], he⟩
    | some pr =>
      rw [hm] at h
      cases pr with
      | mk m rest1 =>
        cases hc : colonTail rest1 with
        | none =>
          simp only [hc] at h
          rcases ih h with ⟨pat, hp, he⟩
          exact ⟨pat, by simp [hp], he⟩
        | some vr =>
          cases vr with
          | mk vv rest2 =>
            simp only [hc, Option.some.injEq, Prod.mk.injEq] at h
            rcases h with ⟨h1, _, _⟩
            subst h1
            exact ⟨kh, by simp, matchFold_fold hm⟩

theorem scanSD_key {fuel : Nat} : ∀ {cs : List Char} {k v : String},
    (k, v) ∈ scanSD fuel cs →
    ∃ pat ∈ sdKeys, k.data.map foldChar = pat.data.map foldChar := by
  induction fuel with
  | zero =>
    intro cs k v h
    cases cs with
    | nil => simp [scanSD] at h
    | cons c cs' => simp [scanSD] at h
  | succ n ih =>
    intro cs k v h
    cases cs with
    | nil => simp [scanSD] at h
    | cons c cs' =>
      simp only [scanSD] at h
      cases ht : tryKeys sdKeys (c :: cs') with
      | none =>
        rw [ht] at h
        exact ih h
      | some tr =>
        rw [ht] at h
        rcases tr with ⟨k', v', rest⟩
        rcases List.mem_cons.mp h with h1 | h1
        · injection h1 with h1a h1b
          subst h1a
          exact tryKeys_key ht
        · exact ih h1

/-! ### Origin of the keys produced by the ComfyUI node scan -/

/-- The keys the node loop itself can introduce. -/
def comfyNodeKeys : List String :=
  ["checkpoint", "steps", "cfg scale", "sampler", "schedule type", "seed", "vae"]

/-- Payload of an `Except` whose two sides both carry a params dict. -/
def exPay : Except ParamMap ParamMap → ParamMap
  | .ok p => p
  | .error p => p

theorem mem_exPay_nameSet {inputs : Json} {f key : String} {pats : List String}
    {p : ParamMap} {x : String × String}
    (hx : x ∈ exPay (nameSet inputs f key pats p)) : x ∈ p ∨ x.1 = key := by
  unfold nameSet at hx
  cases hg : jGetD inputs f (.str "") with
  | error e => rw [hg] at hx; exact Or.inl hx
  | ok v =>
    rw [hg] at hx
    cases ht : pyTruthy v with
    | false => simp only [ht, Bool.false_eq_true, if_false] at hx; exact Or.inl hx
    | true =>
      simp only [ht, if_true] at hx
      cases v with
      | str s => exact mem_pySetItem hx
      | null => exact Or.inl hx
      | bool b => exact Or.inl hx
      | num n => exact Or.inl hx
      | arr xs => exact Or.inl hx
      | obj kvs => exact Or.inl hx

theorem mem_exPay_condSet {inputs : Json} {f key : String} {conv : Json → String}
    {p : ParamMap} {x : String × String}
    (hx : x ∈ exPay (condSet inputs f key conv p)) : x ∈ p ∨ x.1 = key := by
  unfold condSet at hx
  cases hc : jContains inputs f with
  | error e => rw [hc] at hx; exact Or.inl hx
  | ok b =>
    rw [hc] at hx
    cases b with
    | false => exact Or.inl hx
    | true =>
      cases hi : jIndexStr inputs f with
      | error e => rw [hi] at hx; exact Or.inl hx
      | ok v => rw [hi] at hx; exact mem_pySetItem hx

theorem mem_exPay_phaseBind (K1 K2 : String → Prop) {e : Except ParamMap ParamMap}
    {f : ParamMap → Except ParamMap ParamMap} {x : String × String} {P : ParamMap}
    (he : ∀ y : String × String, y ∈ exPay e → y ∈ P ∨ K1 y.1)
    (hf : ∀ (q : ParamMap) (y : String × String), y ∈ exPay (f q) → y ∈ q ∨ K2 y.1)
    (hx : x ∈ exPay (phaseBind e f)) : x ∈ P ∨ (K1 x.1 ∨ K2 x.1) := by
  cases e with
  | error q =>
    rcases he x hx with h | h
    · exact Or.inl h
    · exact Or.inr (Or.inl h)
  | ok p' =>
    rcases hf p' x hx with h | h
    · rcases he x h with h' | h'
      · exact Or.inl h'
      · exact Or.inr (Or.inl h')
    · exact Or.inr (Or.inr h)

theorem mem_exPay_ksampler {inputs : Json} {p : ParamMap} {x : String × String}
    (hx : x ∈ exPay (ksamplerBranch inputs p)) :
    x ∈ p ∨ x.1 ∈ (["steps", "cfg scale", "sampler", "schedule type", "seed"] : List String) := by
  unfold ksamplerBranch at hx
  have res := mem_exPay_phaseBind (fun k => k = "steps")
    (fun k => k = "cfg scale" ∨ (k = "sampler" ∨ (k = "schedule type" ∨ k = "seed")))
    (fun y hy => mem_exPay_condSet hy)
    (fun p2 y hy =>
      mem_exPay_phaseBind (fun k => k = "cfg scale")
        (fun k => k = "sampler" ∨ (k = "schedule type" ∨ k = "seed"))
        (fun z hz => mem_exPay_condSet hz)
        (fun p3 z hz =>
          mem_exPay_phaseBind (fun k => k = "sampler")
            (fun k => k = "schedule type" ∨ k = "seed")
            (fun w hw => mem_exPay_condSet hw)
            (fun p4 w hw =>
              mem_exPay_phaseBind (fun k => k = "schedule type") (fun k => k = "seed")
                (fun u hu => mem_exPay_condSet hu)
                (fun p5 u hu => mem_exPay_condSet hu)
                hw)
            hz)
        hy)
    hx
  rcases res with h | h
  · exact Or.inl h
  · right
    simp only [List.mem_cons, List.not_mem_nil, or_false]
    tauto

theorem mem_exPay_ckptPhase {ct inputs : Json} {p : ParamMap} {x : String × String}
    (hx : x ∈ exPay (ckptPhase ct inputs p)) : x ∈ p ∨ x.1 = "checkpoint" := by
  unfold ckptPhase at hx
  cases hc : jContains2 ct "Checkpoint" "CheckpointLoader" with
  | error e => rw [hc] at hx; exact Or.inl hx
  | ok b =>
    rw [hc] at hx
    cases b with
    | true => exact mem_exPay_nameSet hx
    | false => exact Or.inl hx

theorem mem_exPay_vaePhase {ct inputs : Json} {p : ParamMap} {x : String × String}
    (hx : x ∈ exPay (vaePhase ct inputs p)) : x ∈ p ∨ x.1 = "vae" := by
  unfold vaePhase at hx
  cases hc : jContains ct "VAE" with
  | error e => rw [hc] at hx; exact Or.inl hx
  | ok b =>
    rw [hc] at hx
    cases b with
    | true => exact mem_exPay_nameSet hx
    | false => exact Or.inl hx

theorem mem_exPay_sampPhase {ct inputs : Json} {p : ParamMap} {x : String × String}
    (hx : x ∈ exPay (sampPhase ct inputs p)) :
    x ∈ p ∨ x.1 ∈ (["steps", "cfg scale", "sampler", "schedule type", "seed"] : List String) := by
  unfold sampPhase at hx
  cases hc : jContains2 ct "KSampler" "Sampler" with
  | error e => rw [hc] at hx; exact Or.inl hx
  | ok b =>
    rw [hc] at hx
    cases b with
    | true => exact mem_exPay_ksampler hx
    | false => exact Or.inl hx

theorem loraUse_error {lt : Json} {p : ParamMap} {loras : List String}
    {q : ParamMap} (h : loraUse lt p loras = .error q) : q = p := by
  unfold loraUse at h
  cases ht : pyTruthy lt with
  | false =>
    rw [ht] at h
    simp at h
  | true =>
    rw [ht] at h
    simp only [if_true] at h
    cases lt with
    | str s =>
      have h' : (match searchLoraName s.data.length s.data with
        | some nm => (Except.ok (loras ++ [nm]) : Except ParamMap (List String))
        | none =>
          if startsWithLt s then Except.ok loras
          else Except.ok (loras ++ [pyReplaceStr s ".safetensors" ""])) =
          Except.error q := h
      cases hs : searchLoraName s.data.length s.data with
      | some nm => rw [hs] at h'; simp at h'
      | none =>
        rw [hs] at h'
        cases hw : startsWithLt s with
        | true => rw [hw] at h'; simp at h'
        | false => rw [hw] at h'; simp at h'
    | null => injection h with h1; exact h1.symm
    | bool b => injection h with h1; exact h1.symm
    | num n => injection h with h1; exact h1.symm
    | arr xs => injection h with h1; exact h1.symm
    | obj kvs => injection h with h1; exact h1.symm

theorem loraBranch_error {inputs : Json} {p : ParamMap} {loras : List String}
    {q : ParamMap} (h : loraBranch inputs p loras = .error q) : q = p := by
  unfold loraBranch at h
  cases hc : loraChoose inputs with
  | error e => rw [hc] at h; injection h with h1; exact h1.symm
  | ok lt =>
    rw [hc] at h
    exact loraUse_error h

theorem loraPhase_error {ct inputs : Json} {p : ParamMap} {l : List String}
    {q : ParamMap} (h : loraPhase ct inputs p l = .error q) : q = p := by
  unfold loraPhase at h
  cases hc : jContains2 ct "Lora" "LoRA" with
  | error e => rw [hc] at h; injection h with h1; exact h1.symm
  | ok b =>
    rw [hc] at h
    cases b with
    | true => exact loraBranch_error h
    | false => cases h

/-- Payload of a node-loop `Except`: the params at the raise point, or the
params component of a normal result. -/
def nodePay : Except ParamMap (ParamMap × List String) → ParamMap
  | .ok pr => pr.1
  | .error p => p

theorem mem_nodePay_nodeCore (ct inputs : Json) (p0 : ParamMap) (l0 : List String)
    (x : String × String)
    (hx : x ∈ nodePay (phaseBind (ckptPhase ct inputs p0) (fun p1 =>
      loraBind (loraPhase ct inputs p1 l0) (fun loras1 =>
      phaseBind (sampPhase ct inputs p1) (fun p6 =>
      phaseBind (vaePhase ct inputs p6) (fun p7 =>
      .ok (p7, loras1))))))) :
    x ∈ p0 ∨ x.1 ∈ comfyNodeKeys := by
  have ck : ∀ y : String × String, y ∈ exPay (ckptPhase ct inputs p0) →
      y ∈ p0 ∨ y.1 ∈ comfyNodeKeys := by
    intro y hy
    rcases mem_exPay_ckptPhase hy with h | h
    · exact Or.inl h
    · exact Or.inr (by simp [comfyNodeKeys, h])
  cases h1 : ckptPhase ct inputs p0 with
  | error q =>
    rw [h1] at hx
    simp only [phaseBind, nodePay] at hx
    exact ck x (by rw [h1]; exact hx)
  | ok p1 =>
    rw [h1] at hx
    simp only [phaseBind] at hx
    have m1 : ∀ y : String × String, y ∈ p1 → y ∈ p0 ∨ y.1 ∈ comfyNodeKeys := by
      intro y hy
      exact ck y (by rw [h1]; exact hy)
    have sp : ∀ y : String × String, y ∈ exPay (sampPhase ct inputs p1) →
        y ∈ p0 ∨ y.1 ∈ comfyNodeKeys := by
      intro y hy
      rcases mem_exPay_sampPhase hy with h | h
      · exact m1 y h
      · refine Or.inr ?_
        simp only [comfyNodeKeys, List.mem_cons, List.not_mem_nil, or_false] at h ⊢
        tauto
    cases h2 : loraPhase ct inputs p1 l0 with
    | error q =>
      rw [h2] at hx
      simp only [loraBind, nodePay] at hx
      have hq := loraPhase_error h2
      subst hq
      exact m1 x hx
    | ok l1 =>
      rw [h2] at hx
      simp only [loraBind] at hx
      cases h3 : sampPhase ct inputs p1 with
      | error q =>
        rw [h3] at hx
        simp only [phaseBind, nodePay] at hx
        exact sp x (by rw [h3]; exact hx)
      | ok p6 =>
        rw [h3] at hx
        simp only [phaseBind] at hx
        have m6 : ∀ y : String × String, y ∈ p6 → y ∈ p0 ∨ y.1 ∈ comfyNodeKeys := by
          intro y hy
          exact sp y (by rw [h3]; exact hy)
        cases h4 : vaePhase ct inputs p6 with
        | error q =>
          rw [h4] at hx
          simp only [phaseBind, nodePay] at hx
          rcases mem_exPay_vaePhase (show x ∈ exPay (vaePhase ct inputs p6) by rw [h4]; exact hx) with h | h
          · exact m6 x h
          · exact Or.inr (by simp [comfyNodeKeys, h])
        | ok p7 =>
          rw [h4] at hx
          simp only [phaseBind, nodePay] at hx
          rcases mem_exPay_vaePhase (show x ∈ exPay (vaePhase ct inputs p6) by rw [h4]; exact hx) with h | h
          · exact m6 x h
          · exact Or.inr (by simp [comfyNodeKeys, h])

theorem mem_nodePay_processNode {nd : Json} {p0 : ParamMap} {l0 : List String}
    {x : String × String} (hx : x ∈ nodePay (processNode nd p0 l0)) :
    x ∈ p0 ∨ x.1 ∈ comfyNodeKeys := by
  unfold processNode at hx
  exact mem_nodePay_nodeCore _ _ _ _ _ hx

theorem mem_nodePay_scanNodes :
    ∀ (nodes : List (String × Json)) (p : ParamMap) (l : List String) (x : String × String),
    x ∈ nodePay (scanNodes nodes p l) → x ∈ p ∨ x.1 ∈ comfyNodeKeys := by
  intro nodes
  induction nodes with
  | nil => intro p l x hx; exact Or.inl hx
  | cons hd tl ih =>
    intro p l x hx
    rcases hd with ⟨nid, nd⟩
    cases nd with
    | obj kvs =>
      simp only [scanNodes] at hx
      cases hpn : processNode (.obj kvs) p l with
      | error p' =>
        rw [hpn] at hx
        exact mem_nodePay_processNode
          (show x ∈ nodePay (processNode (.obj kvs) p l) by rw [hpn]; exact hx)
      | ok pr =>
        rcases pr with ⟨p', l'⟩
        rw [hpn] at hx
        rcases ih p' l' x hx with h | h
        · exact mem_nodePay_processNode
            (show x ∈ nodePay (processNode (.obj kvs) p l) by rw [hpn]; exact h)
        · exact Or.inr h
    | null => exact ih p l x hx
    | bool b => exact ih p l x hx
    | num n => exact ih p l x hx
    | str s => exact ih p l x hx
    | arr xs => exact ih p l x hx

/-- All keys `parse_comfyui_workflow` can emit. -/
def comfyAllKeys : List String := comfyNodeKeys ++ ["lora", "workflow"]

theorem mem_exPay_comfyLoaded {w : Json} {x : String × String}
    (hx : x ∈ exPay (comfyLoaded w)) : x.1 ∈ comfyAllKeys := by
  unfold comfyLoaded at hx
  cases w with
  | obj nodes =>
    have hx0 : x ∈ exPay (match scanNodes nodes [] [] with
      | Except.error p => Except.error p
      | Except.ok (p, loras) =>
        let p1 := if loras = [] then p else pySetItem p "lora" (joinSep ", " loras)
        Except.ok (if p1 = [] then p1 else pySetItem p1 "workflow" "ComfyUI")) := hx
    cases hsn : scanNodes nodes [] [] with
    | error p =>
      rw [hsn] at hx0
      have := mem_nodePay_scanNodes nodes [] [] x
        (show x ∈ nodePay (scanNodes nodes [] []) by rw [hsn]; exact hx0)
      rcases this with h | h
      · exact absurd h (List.not_mem_nil x)
      · simp [comfyAllKeys, h]
    | ok pr =>
      rcases pr with ⟨p, loras⟩
      rw [hsn] at hx0
      have hp : ∀ y : String × String,
          y ∈ (if loras = [] then p else pySetItem p "lora" (joinSep ", " loras)) →
          y.1 ∈ comfyAllKeys := by
        intro y hy
        by_cases hlo : loras = []
        · rw [if_pos hlo] at hy
          have := mem_nodePay_scanNodes nodes [] [] y
            (show y ∈ nodePay (scanNodes nodes [] []) by rw [hsn]; exact hy)
          rcases this with h | h
          · exact absurd h (List.not_mem_nil y)
          · simp [comfyAllKeys, h]
        · rw [if_neg hlo] at hy
          rcases mem_pySetItem hy with h | h
          · have := mem_nodePay_scanNodes nodes [] [] y
              (show y ∈ nodePay (scanNodes nodes [] []) by rw [hsn]; exact h)
            rcases this with h' | h'
            · exact absurd h' (List.not_mem_nil y)
            · simp [comfyAllKeys, h']
          · simp [comfyAllKeys, h]
      by_cases hp1 : (if loras = [] then p else pySetItem p "lora" (joinSep ", " loras)) = []
      · have hx' : x ∈ ([] : ParamMap) := by
          have h0 : x ∈ exPay (Except.ok (α := ParamMap)
              (if (if loras = [] then p else pySetItem p "lora" (joinSep ", " loras)) = []
               then (if loras = [] then p else pySetItem p "lora" (joinSep ", " loras))
               else pySetItem (if loras = [] then p else pySetItem p "lora" (joinSep ", " loras))
                 "workflow" "ComfyUI")) := hx0
          simp only [exPay] at h0
          rw [if_pos hp1, hp1] at h0
          exact h0
        exact absurd hx' (List.not_mem_nil x)
      · have hx' : x ∈ pySetItem
            (if loras = [] then p else pySetItem p "lora" (joinSep ", " loras))
            "workflow" "ComfyUI" := by
          have h0 : x ∈ exPay (Except.ok (α := ParamMap)
              (if (if loras = [] then p else pySetItem p "lora" (joinSep ", " loras)) = []
               then (if loras = [] then p else pySetItem p "lora" (joinSep ", " loras))
               else pySetItem (if loras = [] then p else pySetItem p "lora" (joinSep ", " loras))
                 "workflow" "ComfyUI")) := hx0
          simp only [exPay] at h0
          rw [if_neg hp1] at h0
          exact h0
        rcases mem_pySetItem hx' with h | h
        · exact hp x h
        · simp [comfyAllKeys, h]
  | null => exact absurd hx (List.not_mem_nil x)
  | bool b => exact absurd hx (List.not_mem_nil x)
  | num n => exact absurd hx (List.not_mem_nil x)
  | str st => exact absurd hx (List.not_mem_nil x)
  | arr xs => exact absurd hx (List.not_mem_nil x)

theorem mem_sdFold :
    ∀ (l : List (String × String)) (init : ParamMap) (x : String × String),
    x ∈ l.foldl sdStore init → x ∈ init ∨ ∃ kv ∈ l, x.1 = keyNorm kv.1 := by
  intro l
  induction l with
  | nil => intro init x hx; exact Or.inl hx
  | cons hd tl ih =>
    intro init x hx
    rcases ih (sdStore init hd) x hx with h | h
    · rcases mem_pySetItem h with h1 | h1
      · exact Or.inl h1
      · exact Or.inr ⟨hd, by simp, h1⟩
    · rcases h with ⟨kv, hm, he⟩
      exact Or.inr ⟨kv, by simp [hm], he⟩

theorem mem_parse_comfyui_workflow {s : String} {x : String × String}
    (hx : x ∈ parse_comfyui_workflow s) : x.1 ∈ comfyAllKeys := by
  unfold parse_comfyui_workflow at hx
  unfold comfyTry at hx
  cases hb : extractBraces s.data with
  | none =>
    rw [hb] at hx
    exact absurd hx (List.not_mem_nil x)
  | some js =>
    rw [hb] at hx
    have hx1 : x ∈ exPay (match json_loads js with
      | none => Except.error []
      | some w => comfyLoaded w) := hx
    cases hl : json_loads js with
    | none =>
      rw [hl] at hx1
      exact absurd hx1 (List.not_mem_nil x)
    | some w =>
      rw [hl] at hx1
      exact mem_exPay_comfyLoaded hx1


/-! ### Refinement of the explainer against the specification wording -/

theorem flatMap_entryLines_eq (m : ParamMap) :
    m.flatMap entryLines = (explainTriples m).flatMap tripleLines := by
  induction m with
  | nil => rfl
  | cons kv tl ih =>
    by_cases hw : kv.1 = "workflow"
    · simp only [List.flatMap_cons, entryLines, hw, if_true, explainTriples, List.filter_cons,
        decide_not]
      simp only [explainTriples] at ih
      simp [hw, ih]
    · simp only [List.flatMap_cons, entryLines, hw, if_false, explainTriples, List.filter_cons]
      simp only [explainTriples] at ih
      cases hk : pyGet (lowerStr kv.1) PARAM_EXPLANATIONS with
      | some nd => simp [hw, hk, tripleLines, ih]
      | none => simp [hw, hk, tripleLines, ih]

theorem explain_parameters_refines (m : ParamMap) :
    explain_parameters m = explain_spec m := by
  by_cases hm : m = []
  · subst hm; rfl
  · unfold explain_parameters explain_spec
    rw [if_neg hm, if_neg hm]
    rw [flatMap_entryLines_eq]
    cases hw : pyGet "workflow" m <;> simp

theorem get_quick_summary_refines (m : ParamMap) (h : samplerOk m = true) :
    get_quick_summary_exc m = Except.ok (summarize_spec m) := by
  unfold samplerOk at h
  unfold get_quick_summary_exc summarize_spec modelFragSpec stepsFragSpec cfgFragSpec
    samplerFragSpec workflowFragSpec chosenModelName pyOrStrOpt
  cases hs : pyGet "sampler" m with
  | none =>
    simp only [hs]
    cases h1 : pyGet "model" m <;> cases h2 : pyGet "checkpoint" m <;>
      cases h3 : pyGet "steps" m <;> cases h4 : pyGet "cfg scale" m <;>
      cases h5 : pyGet "workflow" m <;>
      (try simp [joinSep]) <;> (try split_ifs) <;> (try simp_all [joinSep]) <;>
      (try split_ifs) <;> (try simp_all [joinSep])
  | some v =>
    rw [hs] at h
    have h' : (!(pySplitWS v.data).isEmpty) = true := h
    obtain ⟨t, ts, hts⟩ : ∃ t ts, pySplitWS v.data = t :: ts := by
      cases hps : pySplitWS v.data with
      | nil => rw [hps] at h'; simp at h'
      | cons t ts => exact ⟨t, ts, rfl⟩
    simp only [hs, hts]
    cases h1 : pyGet "model" m <;> cases h2 : pyGet "checkpoint" m <;>
      cases h3 : pyGet "steps" m <;> cases h4 : pyGet "cfg scale" m <;>
      cases h5 : pyGet "workflow" m <;>
      (try simp [joinSep]) <;> (try split_ifs) <;> (try simp_all [joinSep]) <;>
      (try split_ifs) <;> (try simp_all [joinSep])


/-! ### Supporting lemmas for the claim theorems -/

theorem mem_pySetItem_of_mem {α : Type} {m : List (String × α)} {k : String} {v : α}
    {x : String × α} (hx : x ∈ m) (hk : x.1 ≠ k) : x ∈ pySetItem m k v := by
  induction m with
  | nil => cases hx
  | cons hd tl ih =>
    by_cases hh : hd.1 = k
    · simp only [pySetItem, hh, if_true]
      rcases List.mem_cons.mp hx with h1 | h1
      · subst h1; exact absurd hh hk
      · exact List.mem_cons_of_mem _ h1
    · simp only [pySetItem, hh, if_false]
      rcases List.mem_cons.mp hx with h1 | h1
      · exact h1 ▸ List.mem_cons_self _ _
      · exact List.mem_cons_of_mem _ (ih h1)

theorem comfyTry_ok_shape {s : String} {m : ParamMap} (h : comfyTry s = .ok m) :
    m = [] ∨ ∃ p1 : ParamMap, p1 ≠ [] ∧ (∀ y : String × String, y ∈ p1 → y.1 ≠ "workflow") ∧
      m = pySetItem p1 "workflow" "ComfyUI" := by
  unfold comfyTry at h
  cases hb : extractBraces s.data with
  | none =>
    rw [hb] at h
    injection h with h1
    exact Or.inl h1.symm
  | some js =>
    rw [hb] at h
    have h1 : (match json_loads js with
      | none => (Except.error [] : Except ParamMap ParamMap)
      | some w => comfyLoaded w) = Except.ok m := h
    cases hl : json_loads js with
    | none =>
      rw [hl] at h1
      cases h1
    | some w =>
      rw [hl] at h1
      unfold comfyLoaded at h1
      cases w with
      | obj nodes =>
        have h2 : (match scanNodes nodes [] [] with
          | Except.error p => (Except.error p : Except ParamMap ParamMap)
          | Except.ok (p, loras) =>
            Except.ok (if (if loras = [] then p else pySetItem p "lora" (joinSep ", " loras)) = []
              then (if loras = [] then p else pySetItem p "lora" (joinSep ", " loras))
              else pySetItem (if loras = [] then p else pySetItem p "lora" (joinSep ", " loras))
                "workflow" "ComfyUI")) = Except.ok m := h1
        cases hsn : scanNodes nodes [] [] with
        | error p =>
          rw [hsn] at h2
          cases h2
        | ok pr =>
          rcases pr with ⟨p, loras⟩
          rw [hsn] at h2
          injection h2 with h3
          by_cases hp1 : (if loras = [] then p else pySetItem p "lora" (joinSep ", " loras)) = []
          · rw [if_pos hp1, hp1] at h3
            exact Or.inl h3.symm
          · rw [if_neg hp1] at h3
            right
            refine ⟨(if loras = [] then p else pySetItem p "lora" (joinSep ", " loras)), hp1,
              ?_, h3.symm⟩
            intro y hy heq
            by_cases hlo : loras = []
            · rw [if_pos hlo] at hy
              rcases mem_nodePay_scanNodes nodes [] [] y (by rw [hsn]; exact hy) with hcon | hmem
              · exact absurd hcon (List.not_mem_nil y)
              · rw [heq] at hmem
                revert hmem
                decide
            · rw [if_neg hlo] at hy
              rcases mem_pySetItem hy with hmem | hkey
              · rcases mem_nodePay_scanNodes nodes [] [] y (by rw [hsn]; exact hmem) with hcon | hmem2
                · exact absurd hcon (List.not_mem_nil y)
                · rw [heq] at hmem2
                  revert hmem2
                  decide
              · rw [heq] at hkey
                exact absurd hkey (by decide)
      | null =>
        have hc : (Except.error [] : Except ParamMap ParamMap) = Except.ok m := h1
        cases hc
      | bool b =>
        have hc : (Except.error [] : Except ParamMap ParamMap) = Except.ok m := h1
        cases hc
      | num n =>
        have hc : (Except.error [] : Except ParamMap ParamMap) = Except.ok m := h1
        cases hc
      | str st =>
        have hc : (Except.error [] : Except ParamMap ParamMap) = Except.ok m := h1
        cases hc
      | arr xs =>
        have hc : (Except.error [] : Except ParamMap ParamMap) = Except.ok m := h1
        cases hc

instance : DecidableEq (Except PyErr String) := fun a b =>
  match a, b with
  | .error x, .error y =>
    if h : x = y then isTrue (by rw [h]) else isFalse (fun hc => h (by injection hc))
  | .ok x, .ok y =>
    if h : x = y then isTrue (by rw [h]) else isFalse (fun hc => h (by injection hc))
  | .error _, .ok _ => isFalse (fun hc => Except.noConfusion hc)
  | .ok _, .error _ => isFalse (fun hc => Except.noConfusion hc)

/-- The closed key vocabulary of the spec's ParameterMap. -/
def allFixedKeys : List String :=
  ["steps", "sampler", "cfg scale", "seed", "size", "model", "model hash", "clip skip",
   "denoising strength", "schedule type", "vae", "checkpoint", "lora", "workflow"]

/-- The spec's C6 example: one `CheckpointLoaderSimple` node and one
`KSampler` node. -/
def comfyExampleInput : String :=
  "\x7b\"1\": \x7b\"class_type\": \"CheckpointLoaderSimple\", \"inputs\": \x7b\"ckpt_name\": \"foo.safetensors\"\x7d\x7d, \"2\": \x7b\"class_type\": \"KSampler\", \"inputs\": \x7b\"steps\": 25, \"cfg\": 6, \"sampler_name\": \"dpmpp_2m\", \"seed\": 999\x7d\x7d\x7d"

/-- A workflow whose second node carries a non-dict `inputs`, so the node
loop raises `TypeError` after the first node stored `steps`. -/
def comfyCexInput : String :=
  "\x7b\"a\": \x7b\"class_type\": \"KSampler\", \"inputs\": \x7b\"steps\": 1\x7d\x7d, \"b\": \x7b\"class_type\": \"KSampler\", \"inputs\": 5\x7d\x7d"

/-! ### Claim theorems -/

/-- C1 (amended): `explain_parameters` is total, and `get_quick_summary`
returns a value on every well-formed ParameterMap whose `sampler` value, if
present, contains a non-whitespace character; the counterexample below
shows that for an empty or whitespace-only `sampler` value it raises
`IndexError`, so the claim's unconditional totality fails. -/
theorem C1_failure_semantics (m : ParamMap) (h : samplerOk m = true) :
    (∃ s : String, get_quick_summary_exc m = Except.ok s) ∧
    ∃ t : String, explain_parameters m = t :=
  ⟨⟨summarize_spec m, get_quick_summary_refines m h⟩, ⟨explain_parameters m, rfl⟩⟩

/-- C1 counterexample: on the well-formed ParameterMap `{sampler: ""}`,
`get_quick_summary` raises `IndexError` (`"".split()[0]`), refuting the
claim that both operations are total. -/
theorem C1_counterexample :
    get_quick_summary_exc [("sampler", "")] = Except.error PyErr.indexError := by decide

/-- C1 witness. -/
theorem C1_witness :
    (∃ s : String, get_quick_summary_exc [("sampler", "Euler a")] = Except.ok s) ∧
    ∃ t : String, explain_parameters [("sampler", "Euler a")] = t :=
  C1_failure_semantics [("sampler", "Euler a")] (by decide)

/-- C2: `parse_parameters` is total on every input string, and a failed
JSON extraction or parse during the Dialect B attempt yields the empty map
for that attempt. -/
theorem C2_parser_error_handling (s : String) (js : List Char) :
    (∃ m : ParamMap, parse_parameters s = m) ∧
    (extractBraces s.data = none → parse_comfyui_workflow s = []) ∧
    (extractBraces s.data = some js → json_loads js = none → parse_comfyui_workflow s = []) := by
  refine ⟨⟨parse_parameters s, rfl⟩, ?_, ?_⟩
  · intro h
    unfold parse_comfyui_workflow comfyTry
    rw [h]
  · intro h1 h2
    unfold parse_comfyui_workflow comfyTry
    rw [h1]
    show (match (match json_loads js with
      | none => (Except.error [] : Except ParamMap ParamMap)
      | some w => comfyLoaded w) with
      | Except.ok p => p
      | Except.error p => p) = []
    rw [h2]

/-- C2 witness: `"{a}"` contains a brace-delimited substring that is not
valid JSON, and the Dialect B attempt returns the empty map. -/
theorem C2_witness : parse_comfyui_workflow "\x7ba\x7d" = [] :=
  (C2_parser_error_handling "\x7ba\x7d" "\x7ba\x7d".data).2.2 rfl rfl

/-- C3: the spec's Dialect A example parses to exactly the stated map, and
every key-value match found by the scan ends up stored (under its
normalized key) in the Dialect A dict. -/
theorem C3_dialect_a (cs : List Char) (p : String × String) :
    (parse_parameters "Steps: 20, Sampler: Euler, CFG scale: 7, Seed: 12345" =
      [("steps", "20"), ("sampler", "Euler"), ("cfg scale", "7"), ("seed", "12345")]) ∧
    (p ∈ scanSDAll cs → (pyGet (keyNorm p.1) (dialectABase cs)).isSome = true) := by
  constructor
  · decide
  · intro hp
    unfold dialectABase
    exact mem_scan_pyGet_isSome _ _ _ hp

/-- C3 witness. -/
theorem C3_witness :
    (pyGet (keyNorm "Steps") (dialectABase "Steps: 20".data)).isSome = true :=
  (C3_dialect_a "Steps: 20".data ("Steps", "20")).2 (by decide)

/-- C4: the spec's LoRA example parses to exactly the stated map, and
whenever the LoRA scan finds at least one tag, the final map binds `lora`
to the names joined with `", "`, overwriting any prior value. -/
theorem C4_lora (s : String) :
    (parse_parameters "<lora:charA:0.8> <lora:charB:0.5>" = [("lora", "charA, charB")]) ∧
    (scanLoraAll s.data ≠ [] →
      pyGet "lora" (parse_parameters s) = some (joinSep ", " (scanLoraAll s.data))) := by
  constructor
  · decide
  · intro h
    have hs : s ≠ "" := by
      intro he
      subst he
      exact h rfl
    have hfull : dialectAFull s =
        pySetItem (dialectABase s.data) "lora" (joinSep ", " (scanLoraAll s.data)) := by
      unfold dialectAFull
      rw [if_neg h]
    have hne : dialectAFull s ≠ [] := by
      rw [hfull]
      exact pySetItem_ne_nil _ _ _
    unfold parse_parameters
    rw [if_neg hs]
    show pyGet "lora" (if dialectAFull s = [] then parse_comfyui_workflow s else dialectAFull s) = _
    rw [if_neg hne, hfull]
    exact lookup_pySetItem_self _ _ _

/-- C4 witness. -/
theorem C4_witness :
    pyGet "lora" (parse_parameters "<lora:a:1>") =
      some (joinSep ", " (scanLoraAll "<lora:a:1>".data)) :=
  (C4_lora "<lora:a:1>").2 (by decide)

/-- C5: the ComfyUI fallback is consulted exactly when Dialect A produced
nothing; in particular a text with no key-value match and no LoRA tag makes
Dialect A empty and triggers Dialect B, and the caller falls back to the
work's `ai_json` string only when the prompt text yielded nothing. -/
theorem C5_fallback (s a : String) :
    (scanSDAll s.data = [] → scanLoraAll s.data = [] →
      dialectAFull s = [] ∧ parse_parameters s = parse_comfyui_workflow s) ∧
    (dialectAFull s ≠ [] → parse_parameters s = dialectAFull s) ∧
    (dialectAFull s = [] → parse_parameters s = parse_comfyui_workflow s) ∧
    (parse_parameters s ≠ [] → explanationParams s a = parse_parameters s) ∧
    (parse_parameters s = [] → a ≠ "" → explanationParams s a = parse_parameters a) := by
  have hc3 : dialectAFull s = [] → parse_parameters s = parse_comfyui_workflow s := by
    intro h
    by_cases hs : s = ""
    · subst hs
      rfl
    · unfold parse_parameters
      rw [if_neg hs]
      show (if dialectAFull s = [] then parse_comfyui_workflow s else dialectAFull s) = _
      rw [if_pos h]
  refine ⟨?_, ?_, hc3, ?_, ?_⟩
  · intro h1 h2
    have hfull : dialectAFull s = [] := by
      unfold dialectAFull
      show (if scanLoraAll s.data = [] then dialectABase s.data else _) = []
      rw [if_pos h2]
      unfold dialectABase
      rw [h1]
      rfl
    exact ⟨hfull, hc3 hfull⟩
  · intro h
    by_cases hs : s = ""
    · subst hs
      exact absurd rfl h
    · unfold parse_parameters
      rw [if_neg hs]
      show (if dialectAFull s = [] then parse_comfyui_workflow s else dialectAFull s) = _
      rw [if_neg h]
  · intro h
    unfold explanationParams
    have hcond : ¬(parse_parameters s = [] ∧ a ≠ "") := fun hc => h hc.1
    show (if parse_parameters s = [] ∧ a ≠ "" then parse_parameters a
      else parse_parameters s) = parse_parameters s
    rw [if_neg hcond]
  · intro h1 h2
    unfold explanationParams
    have hcond : parse_parameters s = [] ∧ a ≠ "" := ⟨h1, h2⟩
    show (if parse_parameters s = [] ∧ a ≠ "" then parse_parameters a
      else parse_parameters s) = parse_parameters a
    rw [if_pos hcond]

/-- C5 witness. -/
theorem C5_witness : parse_parameters "hello" = parse_comfyui_workflow "hello" :=
  ((C5_fallback "hello" "x").1 (by decide) (by decide)).2

set_option maxRecDepth 10000 in
/-- C6 (amended): the spec's ComfyUI example parses to exactly the stated
map; when the node scan completes without a Python-level error, the
`workflow = "ComfyUI"` entry is present if and only if the map is
non-empty, and whenever it is present the map has another entry.  The
counterexample below shows that a scan aborted mid-way by a `TypeError`
returns a non-empty partial map without the `workflow` key, so the claimed
equivalence does not hold for every Dialect B input. -/
theorem C6_comfy (s : String) (m : ParamMap) :
    (parse_parameters comfyExampleInput =
      [("checkpoint", "foo"), ("steps", "25"), ("cfg scale", "6"), ("sampler", "dpmpp_2m"),
       ("seed", "999"), ("workflow", "ComfyUI")]) ∧
    (comfyTry s = .ok m → (m ≠ [] ↔ pyGet "workflow" m = some "ComfyUI")) ∧
    (comfyTry s = .ok m → m ≠ [] →
      ∃ x : String × String, x ∈ m ∧ x.1 ≠ "workflow") := by
  refine ⟨by decide, ?_, ?_⟩
  · intro h
    rcases comfyTry_ok_shape h with hm | ⟨p1, hne, hkeys, hm⟩
    · subst hm
      simp [pyGet]
    · subst hm
      constructor
      · intro _
        exact lookup_pySetItem_self p1 "workflow" "ComfyUI"
      · intro _
        exact pySetItem_ne_nil _ _ _
  · intro h hne
    rcases comfyTry_ok_shape h with hm | ⟨p1, hp1, hkeys, hm⟩
    · exact absurd hm hne
    · subst hm
      cases p1 with
      | nil => exact absurd rfl hp1
      | cons q rest =>
        refine ⟨q, ?_, hkeys q (List.mem_cons_self q rest)⟩
        exact mem_pySetItem_of_mem (List.mem_cons_self q rest)
          (hkeys q (List.mem_cons_self q rest))

/-- C6 counterexample: the node scan of `comfyCexInput` stores `steps`
from the first node, then raises `TypeError` on the second node's integer
`inputs`; the returned map is non-empty yet has no `workflow` key. -/
theorem C6_counterexample :
    parse_comfyui_workflow comfyCexInput = [("steps", "1")] ∧
    pyGet "workflow" (parse_comfyui_workflow comfyCexInput) = none := by
  constructor
  · decide
  · decide

/-- C6 witness. -/
theorem C6_witness :
    (([] : ParamMap) ≠ [] ↔ pyGet "workflow" ([] : ParamMap) = some "ComfyUI") :=
  (C6_comfy "x" []).2.1 rfl

/-- C7 (amended): for the empty map the summary is the empty string, and
for every ParameterMap whose `sampler` value (if present) contains a
non-whitespace character, `get_quick_summary` returns exactly the
fragments described by the spec, joined with `" | "`.  The counterexample
below shows the claim's unconditional form fails on a whitespace-only
sampler value, where the function raises `IndexError` instead. -/
theorem C7_summary (m : ParamMap) (h : samplerOk m = true) :
    get_quick_summary_exc [] = Except.ok "" ∧
    get_quick_summary_exc m = Except.ok (summarize_spec m) :=
  ⟨rfl, get_quick_summary_refines m h⟩

/-- C7 counterexample: on `{sampler: " "}` the summary raises `IndexError`
rather than building fragments. -/
theorem C7_counterexample :
    get_quick_summary_exc [("sampler", " ")] = Except.error PyErr.indexError := by decide

/-- C7 witness: the spec's own summary example. -/
theorem C7_witness :
    get_quick_summary_exc
      [("model", "AnimeModelXL_v3_fp16"), ("steps", "30"), ("cfg scale", "7"),
       ("sampler", "Euler a")] =
    Except.ok (summarize_spec
      [("model", "AnimeModelXL_v3_fp16"), ("steps", "30"), ("cfg scale", "7"),
       ("sampler", "Euler a")]) :=
  (C7_summary _ (by decide)).2

/-- C8: the empty map explains to the fixed no-parameters message, and on
every map the rendered explanation equals the spec-side rendering: a
header, the workflow entry first when present, then the entries in map
order, with knowledge-base keys rendered as display name, raw value and
description, and unknown keys rendered raw. -/
theorem C8_explain (m : ParamMap) :
    explain_parameters [] = noParamsMsg ∧ explain_parameters m = explain_spec m :=
  ⟨rfl, explain_parameters_refines m⟩

/-- C9: catalog-response normalization: a bare array and the `data`,
`works` and `items` containers normalize to the same item list; an
unrecognized object shape normalizes to the empty list; the total count is
read from the first present key among `total`, `total_count` and `count`,
and otherwise falls back to the length of the extracted list (0 for an
absent response). -/
theorem C9_normalization (xs : List Json) (kvs : List (String × Json)) (v : Json) :
    (extract_works (.arr xs) = .ok (.arr xs)) ∧
    (pyGet "data" kvs = some v → extract_works (.obj kvs) = .ok v) ∧
    (pyGet "data" kvs = none → pyGet "works" kvs = some v →
      extract_works (.obj kvs) = .ok v) ∧
    (pyGet "data" kvs = none → pyGet "works" kvs = none → pyGet "items" kvs = some v →
      extract_works (.obj kvs) = .ok v) ∧
    (pyGet "data" kvs = none → pyGet "works" kvs = none → pyGet "items" kvs = none →
      extract_works (.obj kvs) = .ok (.arr [])) ∧
    (extract_works (.obj [("data", .arr xs)]) = extract_works (.arr xs) ∧
     extract_works (.obj [("works", .arr xs)]) = extract_works (.arr xs) ∧
     extract_works (.obj [("items", .arr xs)]) = extract_works (.arr xs)) ∧
    (pyGet "total" kvs = some v → get_total_count (.obj kvs) = .ok v) ∧
    (pyGet "total" kvs = none → pyGet "total_count" kvs = some v →
      get_total_count (.obj kvs) = .ok v) ∧
    (pyGet "total" kvs = none → pyGet "total_count" kvs = none → pyGet "count" kvs = some v →
      get_total_count (.obj kvs) = .ok v) ∧
    (pyGet "total" kvs = none → pyGet "total_count" kvs = none → pyGet "count" kvs = none →
      pyGet "data" kvs = some (.arr xs) →
      get_total_count (.obj kvs) = .ok (.num xs.length)) ∧
    (get_total_count .null = .ok (.num 0) ∧ extract_works .null = .ok (.arr [])) := by
  have hne : ∀ (k : String) (w : Json), pyGet k kvs = some w → kvs ≠ [] := by
    intro k w hk hc
    subst hc
    cases hk
  refine ⟨?_, ?_, ?_, ?_, ?_, ⟨?_, ?_, ?_⟩, ?_, ?_, ?_, ?_, ⟨rfl, rfl⟩⟩
  · cases xs with
    | nil => rfl
    | cons hd tl => rfl
  · intro h
    cases kvs with
    | nil => cases h
    | cons hd tl =>
      simp [extract_works, pyTruthy, jContains, containsKey, jIndexStr, h]
  · intro h1 h2
    cases kvs with
    | nil => cases h2
    | cons hd tl =>
      simp [extract_works, pyTruthy, jContains, containsKey, jIndexStr, h1, h2]
  · intro h1 h2 h3
    cases kvs with
    | nil => cases h3
    | cons hd tl =>
      simp [extract_works, pyTruthy, jContains, containsKey, jIndexStr, h1, h2, h3]
  · intro h1 h2 h3
    cases kvs with
    | nil => rfl
    | cons hd tl =>
      simp [extract_works, pyTruthy, jContains, containsKey, jIndexStr, h1, h2, h3]
  · cases xs with
    | nil => rfl
    | cons hd tl => rfl
  · cases xs with
    | nil => rfl
    | cons hd tl => rfl
  · cases xs with
    | nil => rfl
    | cons hd tl => rfl
  · intro h
    cases kvs with
    | nil => cases h
    | cons hd tl =>
      simp [get_total_count, pyTruthy, jContains, containsKey, jIndexStr, h]
  · intro h1 h2
    cases kvs with
    | nil => cases h2
    | cons hd tl =>
      simp [get_total_count, pyTruthy, jContains, containsKey, jIndexStr, h1, h2]
  · intro h1 h2 h3
    cases kvs with
    | nil => cases h3
    | cons hd tl =>
      simp [get_total_count, pyTruthy, jContains, containsKey, jIndexStr, h1, h2, h3]
  · intro h1 h2 h3 h4
    cases kvs with
    | nil => cases h4
    | cons hd tl =>
      simp [get_total_count, extract_works, pyTruthy, jContains, containsKey, jIndexStr,
        pyLen, h1, h2, h3, h4]

/-- C9 witness. -/
theorem C9_witness :
    extract_works (.obj [("data", Json.num 7)]) = .ok (Json.num 7) ∧
    get_total_count (.obj [("total", Json.str "5")]) = .ok (Json.str "5") :=
  ⟨(C9_normalization [] [("data", Json.num 7)] (Json.num 7)).2.1 rfl,
   (C9_normalization [] [("total", Json.str "5")] (Json.str "5")).2.2.2.2.2.2.1 rfl⟩

/-- C10 (amended): every key emitted by `parse_parameters` is either one
of the fixed lowercase keys, or the lower-stripped normalization of a
matched text that case-folds (in the `re.IGNORECASE` sense, which includes
Unicode fold pairs such as long s ~ `s`) to one of the eleven Dialect A
key names.  The counterexample below shows the original claim's fixed-set
form fails: the input `"ſteps: 5"` produces the key `"ſteps"`, which is
outside the fixed set. -/
theorem C10_keys (s : String) (k v : String) (h : (k, v) ∈ parse_parameters s) :
    k ∈ allFixedKeys ∨
    ∃ raw pat : String, pat ∈ sdKeys ∧ k = keyNorm raw ∧
      raw.data.map foldChar = pat.data.map foldChar := by
  have hsub : ∀ k' : String, k' ∈ comfyAllKeys → k' ∈ allFixedKeys := by
    intro k' hk
    fin_cases hk <;> decide
  unfold parse_parameters at h
  by_cases hs : s = ""
  · rw [if_pos hs] at h
    cases h
  · rw [if_neg hs] at h
    have h' : (k, v) ∈ (if dialectAFull s = [] then parse_comfyui_workflow s
        else dialectAFull s) := h
    by_cases hd : dialectAFull s = []
    · rw [if_pos hd] at h'
      exact Or.inl (hsub k (mem_parse_comfyui_workflow h'))
    · rw [if_neg hd] at h'
      unfold dialectAFull at h'
      have h'' : (k, v) ∈ (if scanLoraAll s.data = [] then dialectABase s.data
          else pySetItem (dialectABase s.data) "lora" (joinSep ", " (scanLoraAll s.data))) := h'
      have hbase : (k, v) ∈ dialectABase s.data →
          k ∈ allFixedKeys ∨ ∃ raw pat : String, pat ∈ sdKeys ∧ k = keyNorm raw ∧
            raw.data.map foldChar = pat.data.map foldChar := by
        intro hb
        unfold dialectABase at hb
        rcases mem_sdFold _ _ _ hb with hcon | ⟨kv, hkv, hk⟩
        · exact absurd hcon (List.not_mem_nil _)
        · rcases kv with ⟨rk, rv⟩
          rcases scanSD_key hkv with ⟨pat, hpat, hfold⟩
          exact Or.inr ⟨rk, pat, hpat, hk, hfold⟩
      by_cases hl : scanLoraAll s.data = []
      · rw [if_pos hl] at h''
        exact hbase h''
      · rw [if_neg hl] at h''
        rcases mem_pySetItem h'' with hb | hk
        · exact hbase hb
        · subst hk
          exact Or.inl (by decide)

/-- C10 counterexample: an input whose key only case-folds to `Steps`
produces a key outside the fixed vocabulary. -/
theorem C10_counterexample :
    parse_parameters "ſteps: 5" = [("ſteps", "5")] ∧ "ſteps" ∉ allFixedKeys := by
  constructor
  · decide
  · decide

/-- C10 witness. -/
theorem C10_witness :
    "steps" ∈ allFixedKeys ∨
    ∃ raw pat : String, pat ∈ sdKeys ∧ "steps" = keyNorm raw ∧
      raw.data.map foldChar = pat.data.map foldChar :=
  C10_keys "Steps: 20" "steps" "20" (by decide)

end Bot
